import Mathlib

set_option autoImplicit false

/-!
Verification of the dynamic-plugins installer (src/docker/install-dynamic-plugins.ts).

The script is embedded shallowly: YAML/JSON-like runtime values are modelled by the
mutually inductive type JValue below, and each function of the script is translated
into a Lean function over that type.  Fallible steps return Except String, carrying
the exact exception message built by the script; uncaught JavaScript runtime errors
(property access on null, the in operator on a primitive, strict-mode assignment to
a primitive) are modelled as Except errors with a fixed "TypeError..." text, since
both kinds abort the run through the top-level catch.

Modelling notes, recorded once here:
- Numbers are modelled as Int; the configuration fragments the script merges are
  YAML scalars and the claims only involve integers.
- JavaScript objects preserve insertion order for the non-numeric string keys used
  here (package names, configuration keys); association lists model them, with
  in-place update on existing keys and append on new keys.
- Arrays support canonical numeric-string indexing and a read-only length property;
  assigning a non-index property on an array and assigning to length are modelled
  as no-ops (neither is reachable from YAML-derived data in this program).
- External collaborators (the npm pack invocation, the filesystem, the openssl
  digest pipeline, the tar archive contents) are parameters of the model, exactly
  the data the script consumes from them.
-/

mutual
/-- Model of a JavaScript runtime value as produced by yaml.load: strings, numbers,
booleans, null, arrays and plain objects. -/
inductive JValue where
  | str (s : String)
  | num (n : Int)
  | bool (b : Bool)
  | null
  | arr (elems : JList)
  | obj (fields : JObj)
  deriving DecidableEq
/-- List of JValue (the elements of a JavaScript array). -/
inductive JList where
  | nil
  | cons (head : JValue) (tail : JList)
  deriving DecidableEq
/-- Ordered fields of a JavaScript object: key, value, remaining fields. -/
inductive JObj where
  | nil
  | cons (key : String) (val : JValue) (rest : JObj)
  deriving DecidableEq
end

deriving instance DecidableEq for Except

/-- Conversion of the element list of an array to a Lean list, used to state
theorems that quantify over the entries of a manifest list. -/
def jlistToList : JList → List JValue
  | .nil => []
  | .cons v r => v :: jlistToList r

/-- The test typeof value === \x27object\x27 && value !== null of the script:
true exactly for arrays and plain objects. -/
def isObjectLike : JValue → Bool
  | .arr _ => true
  | .obj _ => true
  | _ => false

/-- Field lookup in an object (property order irrelevant for reads). -/
def objGet : JObj → String → Option JValue
  | .nil, _ => none
  | .cons k v r, key => if k = key then some v else objGet r key

/-- Presence of a field in an object (the in operator on objects). -/
def objHas : JObj → String → Bool
  | .nil, _ => false
  | .cons k _ r, key => if k = key then true else objHas r key

/-- Field assignment on an object: in-place update of an existing key, append of
a new key, matching JavaScript property-creation order. -/
def objSet : JObj → String → JValue → JObj
  | .nil, key, v => .cons key v .nil
  | .cons k w r, key, v => if k = key then .cons k v r else .cons k w (objSet r key v)

/-- Length of an array value. -/
def jlistLen : JList → Nat
  | .nil => 0
  | .cons _ r => jlistLen r + 1

/-- Element of an array at an index. -/
def jlistGet : JList → Nat → Option JValue
  | .nil, _ => none
  | .cons v _, 0 => some v
  | .cons _ r, n+1 => jlistGet r n

/-- Element assignment at an index; indices past the end pad with null, the model
of JavaScript array holes. -/
def jlistSet : JList → Nat → JValue → JList
  | .nil, 0, v => .cons v .nil
  | .nil, n+1, v => .cons .null (jlistSet .nil n v)
  | .cons _ r, 0, v => .cons v r
  | .cons w r, n+1, v => .cons w (jlistSet r n v)

/-- Decimal digit value of a character, none for a non-digit. -/
def charDigit? (c : Char) : Option Nat :=
  if c.isDigit then some (c.toNat - 48) else none

/-- Accumulating decimal parser over the characters of a string. -/
def parseNatAux : List Char → Nat → Option Nat
  | [], acc => some acc
  | c :: r, acc =>
    match charDigit? c with
    | some d => parseNatAux r (acc * 10 + d)
    | none => none

/-- Decimal parse of a non-empty all-digit character list. -/
def parseNatList : List Char → Option Nat
  | [] => none
  | c :: r => parseNatAux (c :: r) 0

/-- A string is a canonical array index when it is the decimal representation of a
natural number, which is how JavaScript decides between index and plain property. -/
def parseArrayIndex (s : String) : Option Nat :=
  match parseNatList s.data with
  | some n => if toString n = s then some n else none
  | none => none

/-- Model of the JavaScript startsWith test on strings. -/
def jsStartsWith (s pre : String) : Bool :=
  pre.data.isPrefixOf s.data

/-- Model of JavaScript String.prototype.slice(n) for a non-negative index: the
characters from position n on. -/
def jsSlice (s : String) (n : Nat) : String :=
  String.mk (s.data.drop n)

/-- ASCII whitespace test for the trim model. -/
def isJsSpace (c : Char) : Bool :=
  c == ' ' || c == '\t' || c == '\n' || c == '\r'

/-- Model of JavaScript String.prototype.trim (ASCII whitespace suffices for the
process output handled here). -/
def jsTrim (s : String) : String :=
  String.mk (((s.data.dropWhile isJsSpace).reverse.dropWhile isJsSpace).reverse)

/-- Split of a character list at every occurrence of a separator character,
keeping empty pieces, the behaviour of JavaScript split with a one-character
separator string. -/
def splitOnChar (c : Char) : List Char → List (List Char)
  | [] => [[]]
  | a :: rest =>
    let r := splitOnChar c rest
    if a = c then [] :: r
    else
      match r with
      | [] => [[a]]
      | h :: t => (a :: h) :: t

/-- Model of JavaScript split on the one-character separator used by
verifyPackageIntegrity (integrity.split with a dash). -/
def jsSplitDash (s : String) : List String :=
  (splitOnChar '-' s.data).map String.mk

mutual
/-- JavaScript ToString coercion of a value, used for template literals and for
property keys: String(undefined) and property keys of undefined are handled by
jsTemplateStr below. -/
def jsToStr : JValue → String
  | .str s => s
  | .num n => toString n
  | .bool b => if b then "true" else "false"
  | .null => "null"
  | .arr es => jsArrToStr es
  | .obj _ => "[object Object]"
/-- Array.prototype.toString: elements joined with a comma, null elements giving
the empty string. -/
def jsArrToStr : JList → String
  | .nil => ""
  | .cons .null .nil => ""
  | .cons .null rest => "," ++ jsArrToStr rest
  | .cons v .nil => jsToStr v
  | .cons v rest => jsToStr v ++ "," ++ jsArrToStr rest
end

/-- String coercion of a possibly-undefined value (property reads give undefined
for a missing property, rendered as the string undefined). -/
def jsTemplateStr : Option JValue → String
  | none => "undefined"
  | some v => jsToStr v

/-- Message of the TypeError raised by a property read on null. -/
def typeErrorReadNull : String := "TypeError: Cannot read properties of null"

/-- Message of the TypeError raised by the in operator on a primitive. -/
def typeErrorIn : String := "TypeError: Cannot use \x27in\x27 operator on a primitive"

/-- Message of the TypeError raised by strict-mode property assignment on a
primitive. -/
def typeErrorWrite : String := "TypeError: Cannot create property on a primitive"

/-- Message of the TypeError raised by calling startsWith on a non-string. -/
def typeErrorStartsWith : String := "TypeError: package_.startsWith is not a function"

/-- Property read destination[key]: throws on null, looks up object fields, array
indices and array length, and yields undefined (none) on other primitives. -/
def jsRead : JValue → String → Except String (Option JValue)
  | .null, _ => .error typeErrorReadNull
  | .obj fs, key => .ok (objGet fs key)
  | .arr es, key =>
    if key = "length" then .ok (some (.num (jlistLen es)))
    else
      match parseArrayIndex key with
      | some i => .ok (jlistGet es i)
      | none => .ok none
  | _, _ => .ok none

/-- The in operator key in destination: throws on any primitive, tests field
presence on objects and index validity (or length) on arrays. -/
def jsHasProp : JValue → String → Except String Bool
  | .obj fs, key => .ok (objHas fs key)
  | .arr es, key =>
    if key = "length" then .ok true
    else
      match parseArrayIndex key with
      | some i => .ok (decide (i < jlistLen es))
      | none => .ok false
  | _, _ => .error typeErrorIn

/-- Strict-mode property assignment destination[key] = v: updates object fields
and array indices, throws on primitives; assigning a non-index array property or
array length is modelled as a no-op (unreachable in this program). -/
def jsWrite : JValue → String → JValue → Except String JValue
  | .obj fs, key, v => .ok (.obj (objSet fs key v))
  | .arr es, key, v =>
    if key = "length" then .ok (.arr es)
    else
      match parseArrayIndex key with
      | some i => .ok (.arr (jlistSet es i v))
      | none => .ok (.arr es)
  | _, _, _ => .error typeErrorWrite

/-- Message of the InstallException raised by merge on a conflicting key, with the
path argument being prefix + key exactly as interpolated by the script. -/
def conflictMsg (p : String) : String :=
  "Config key \x27" ++ p ++ "\x27 defined differently for 2 dynamic plugins"

/-- Strict inequality destination[key] !== value in the scalar branch of merge:
the left side is the stored value (undefined when the key tested present reads
back nothing), the right side the fragment value, which is never object-like
there, so reference equality never applies. -/
def jsStrictNeq : Option JValue → JValue → Bool
  | none, _ => true
  | some w, v => decide (w ≠ v)

mutual
/-- The merge function of the script (lines 37-67): iterates Object.entries of the
source, recursing into object-like values with prefix key + dot, and treating the
rest as scalars with a conflict check.  Object.entries of an array yields its
index-keyed pairs, handled by mergeElems. -/
def merge : JValue → JValue → String → Except String JValue
  | .obj fs, destination, p => mergeFields fs destination p
  | .arr es, destination, p => mergeElems 0 es destination p
  | _, destination, _ => .ok destination

/-- One pass over the entries of an object-shaped merge source. -/
def mergeFields : JObj → JValue → String → Except String JValue
  | .nil, destination, _ => .ok destination
  | .cons key value rest, destination, p =>
    if isObjectLike value then
      match jsRead destination key with
      | .error e => .error e
      | .ok got =>
        let node := match got with
          | none => JValue.obj .nil
          | some .null => JValue.obj .nil
          | some w => w
        match merge value node (key ++ ".") with
        | .error e => .error e
        | .ok node2 =>
          match jsWrite destination key node2 with
          | .error e => .error e
          | .ok d2 => mergeFields rest d2 p
    else
      match jsHasProp destination key with
      | .error e => .error e
      | .ok present =>
        match jsRead destination key with
        | .error e => .error e
        | .ok got =>
          if present ∧ jsStrictNeq got value then .error (conflictMsg (p ++ key))
          else
            match jsWrite destination key value with
            | .error e => .error e
            | .ok d2 => mergeFields rest d2 p

/-- One pass over the entries of an array-shaped merge source: Object.entries of
an array produces pairs keyed by the decimal index strings 0, 1, 2, ... -/
def mergeElems : Nat → JList → JValue → String → Except String JValue
  | _, .nil, destination, _ => .ok destination
  | i, .cons value rest, destination, p =>
    if isObjectLike value then
      match jsRead destination (toString i) with
      | .error e => .error e
      | .ok got =>
        let node := match got with
          | none => JValue.obj .nil
          | some .null => JValue.obj .nil
          | some w => w
        match merge value node (toString i ++ ".") with
        | .error e => .error e
        | .ok node2 =>
          match jsWrite destination (toString i) node2 with
          | .error e => .error e
          | .ok d2 => mergeElems (i+1) rest d2 p
    else
      match jsHasProp destination (toString i) with
      | .error e => .error e
      | .ok present =>
        match jsRead destination (toString i) with
        | .error e => .error e
        | .ok got =>
          if present ∧ jsStrictNeq got value then .error (conflictMsg (p ++ toString i))
          else
            match jsWrite destination (toString i) value with
            | .error e => .error e
            | .ok d2 => mergeElems (i+1) rest d2 p
end

/-- The RECOGNIZED_ALGORITHMS constant of the script. -/
def RECOGNIZED_ALGORITHMS : List String := ["sha512", "sha384", "sha256"]

/-- Template-literal interpolation of the RECOGNIZED_ALGORITHMS array (a
JavaScript array renders as its elements joined with commas). -/
def recognizedAlgorithmsJoined : String := "sha512,sha384,sha256"

/-- Node Buffer.from(string, base64) never throws for a string argument: invalid
characters are silently skipped.  The try/catch of the script around that call is
therefore dead code; this constant records the platform behaviour it tests. -/
def nodeBase64DecodeThrows (_ : String) : Bool := false

/-- The invalid-base64 error message of verifyPackageIntegrity (dead code, see
nodeBase64DecodeThrows). -/
def invalidBase64Msg (pkg hashDigest : String) : String :=
  pkg ++ ": Provided Package integrity hash " ++ hashDigest ++
    " is not a valid base64 encoding"

/-- The digest-mismatch error message of verifyPackageIntegrity. -/
def hashMismatchMsg (pkg output hashDigest : String) : String :=
  pkg ++ ": The hash of the downloaded package " ++ output ++
    " does not match the provided integrity hash " ++ hashDigest ++
    " provided in the configuration file"

/-- The verifyPackageIntegrity function of the script (lines 71-125).  The dgst
parameter models the cat | openssl dgst | openssl base64 pipeline: it maps an
algorithm name and the archive path to the base64 digest text the pipeline
prints. -/
def verifyPackageIntegrity (plugin : JValue) (archive : String)
    (dgst : String → String → String) : Except String Unit :=
  match jsRead plugin "package" with
  | .error e => .error e
  | .ok pkgv =>
    let pkg := jsTemplateStr pkgv
    match jsHasProp plugin "integrity" with
    | .error e => .error e
    | .ok hasIntegrity =>
      if hasIntegrity = false then
        .error ("Package integrity for " ++ pkg ++ " is missing")
      else
        match jsRead plugin "integrity" with
        | .error e => .error e
        | .ok integv =>
          match integv with
          | some (.str integrity) =>
            let parts := jsSplitDash integrity
            if parts.length ≠ 2 then
              .error ("Package integrity for " ++ pkg ++
                " must be a string of the form <algorithm>-<hash>")
            else
              let algorithm := parts.headD ""
              let hashDigest := parts.getD 1 ""
              if (RECOGNIZED_ALGORITHMS.contains algorithm) = false then
                .error (pkg ++ ": Provided Package integrity algorithm " ++ algorithm ++
                  " is not supported, please use one of following algorithms " ++
                  recognizedAlgorithmsJoined ++ " instead")
              else if nodeBase64DecodeThrows hashDigest then
                .error (invalidBase64Msg pkg hashDigest)
              else
                let output := jsTrim (dgst algorithm archive)
                if hashDigest ≠ output then
                  .error (hashMismatchMsg pkg output hashDigest)
                else .ok ()
          | _ => .error ("Package integrity for " ++ pkg ++ " must be a string")

/-- One entry of the tar archive: the stored path, the size declared in the entry
header (what entry.size exposes), and the actual byte count of its content, which
the extraction filter never inspects. -/
structure TarEntry where
  name : String
  size : Nat
  actualSize : Nat
  deriving DecidableEq

/-- The path-violation message of the extraction filter (the doubled word archive
is present in the script). -/
def archivePrefixMsg (n : String) : String :=
  "NPM package archive archive does not start with \x27package/\x27 as it should: " ++ n

/-- The oversized-entry message of the extraction filter. -/
def zipBombMsg (n : String) : String := "Zip bomb detected in " ++ n

/-- The filter callback passed to tar.extract (lines 310-323): reject entries not
under package/, reject entries whose declared size exceeds maxEntrySize, and on
acceptance return the stored path with the 8-character package/ marker removed
(entry.name.slice(8)). -/
def filterEntry (maxEntrySize : Nat) (e : TarEntry) : Except String String :=
  if (jsStartsWith e.name "package/") = false then .error (archivePrefixMsg e.name)
  else if e.size > maxEntrySize then .error (zipBombMsg e.name)
  else .ok (jsSlice e.name 8)

/-- Extraction of an archive entry list: entries are filtered in order; an
accepted entry is written under its stripped name relative to the target
directory, and a filter exception aborts the stream, leaving the entries already
accepted written and everything from the failing entry on unwritten.  Result:
written relative paths, and the aborting message when one was raised. -/
def extractArchive (maxEntrySize : Nat) : List TarEntry → List String × Option String
  | [] => ([], none)
  | e :: rest =>
    match filterEntry maxEntrySize e with
    | .error msg => ([], some msg)
    | .ok n =>
      let r := extractArchive maxEntrySize rest
      (n :: r.1, r.2)

/-- Lookup in the modelled filesystem: none when the path does not exist, some c
when it exists with parsed YAML content c (itself none when yaml.load returns
undefined for an empty or blank file). -/
def fileLookup : List (String × Option JValue) → String → Option (Option JValue)
  | [], _ => none
  | (p, c) :: r, q => if p = q then some c else fileLookup r q

/-- Lookup in the accumulating allPlugins map. -/
def pmLookup : List (String × JValue) → String → Option JValue
  | [], _ => none
  | (k, v) :: r, q => if k = q then some v else pmLookup r q

/-- Insertion into allPlugins: existing key updated in place, new key appended,
matching JavaScript object key order for the non-numeric keys used here. -/
def pmUpsert : List (String × JValue) → String → JValue → List (String × JValue)
  | [], k, v => [(k, v)]
  | (k0, v0) :: r, k, v => if k0 = k then (k0, v) :: r else (k0, v0) :: pmUpsert r k v

/-- The include-manifest plugin loop (lines 214-216): every entry is inserted
under the property key allPlugins[plugin.package] with no validation at all; a
missing package gives the key undefined, a non-string one its string coercion.
Only reading .package of a null entry can abort (TypeError). -/
def insertIncludePlugins : JList → List (String × JValue) →
    Except String (List (String × JValue))
  | .nil, m => .ok m
  | .cons p rest, m =>
    match jsRead p "package" with
    | .error e => .error e
    | .ok pkgv => insertIncludePlugins rest (pmUpsert m (jsTemplateStr pkgv) p)

/-- The includes loop of main (lines 188-217): each include must be a string
naming an existing file whose content passes typeof object and carries a plugins
array; its plugin entries are then inserted wholesale. -/
def processIncludes (files : List (String × Option JValue)) :
    JList → List (String × JValue) → Except String (List (String × JValue))
  | .nil, m => .ok m
  | .cons inc rest, m =>
    match inc with
    | .str includePath =>
      match fileLookup files includePath with
      | none => .error ("File " ++ includePath ++ " does not exist")
      | some includeContent? =>
        match includeContent? with
        | none => .error (includePath ++ " content must be a YAML object")
        | some c =>
          if isObjectLike c ∨ c = .null then
            match jsRead c "plugins" with
            | .error e => .error e
            | .ok pluginsv =>
              match pluginsv with
              | some (.arr ps) =>
                match insertIncludePlugins ps m with
                | .error e => .error e
                | .ok m2 => processIncludes files rest m2
              | _ => .error ("content of the \x27plugins\x27 field must be a list in " ++
                  includePath)
          else .error (includePath ++ " content must be a YAML object")
    | _ => .error
        "content of the \x27includes\x27 field must be a list of strings in dynamic-plugins.yaml"

/-- The field-level override applied when a root-manifest entry redeclares an
included package (lines 244-249): every entry of the new object except package is
assigned onto the existing definition. -/
def overridePlugin (existing : JValue) : JObj → Except String JValue
  | .nil => .ok existing
  | .cons k v rest =>
    if k = "package" then overridePlugin existing rest
    else
      match jsWrite existing k v with
      | .error e => .error e
      | .ok e2 => overridePlugin e2 rest

/-- The error raised when a root-manifest plugin entry lacks a string package. -/
def rootPackageMsg : String :=
  "content of the \x27plugins.package\x27 field must be a string in dynamic-plugins.yaml"

/-- The root-manifest plugin loop (lines 226-250): entries must carry a string
package; a new package is appended, a known one field-level overridden. -/
def processRootPlugins : JList → List (String × JValue) →
    Except String (List (String × JValue))
  | .nil, m => .ok m
  | .cons p rest, m =>
    match jsRead p "package" with
    | .error e => .error e
    | .ok pkgv =>
      match pkgv with
      | some (.str pkg) =>
        if (pmLookup m pkg).isSome then
          match p with
          | .obj fields =>
            match overridePlugin ((pmLookup m pkg).getD .null) fields with
            | .error e => .error e
            | .ok e2 => processRootPlugins rest (pmUpsert m pkg e2)
          | _ => processRootPlugins rest m
        else processRootPlugins rest (pmUpsert m pkg p)
      | _ => .error rootPackageMsg

/-- Result of manifest resolution: the short-circuit paths for a missing or empty
root manifest, or the resolved ordered package map. -/
inductive ResolveOutcome where
  | noManifest
  | emptyManifest
  | resolved (allPlugins : List (String × JValue))
  deriving DecidableEq

/-- The fixed root manifest path. -/
def dynamicPluginsFile : String := "dynamic-plugins.yaml"

/-- Manifest resolution (lines 139-250 of main): short-circuit on a missing file
or empty content, validate the document shape, gather the includes, then apply
the root plugins list with override semantics. -/
def resolvePlugins (files : List (String × Option JValue)) :
    Except String ResolveOutcome :=
  match fileLookup files dynamicPluginsFile with
  | none => .ok .noManifest
  | some content? =>
    match content? with
    | none => .ok .emptyManifest
    | some content =>
      if content = .str "" then .ok .emptyManifest
      else if isObjectLike content ∨ content = .null then
        match content with
        | .obj fs =>
          let includes := match objGet fs "includes" with
            | none => JValue.arr .nil
            | some .null => JValue.arr .nil
            | some v => v
          match includes with
          | .arr incs =>
            match processIncludes files incs [] with
            | .error e => .error e
            | .ok m =>
              let plugins := match objGet fs "plugins" with
                | none => JValue.arr .nil
                | some .null => JValue.arr .nil
                | some v => v
              match plugins with
              | .arr ps =>
                match processRootPlugins ps m with
                | .error e => .error e
                | .ok m2 => .ok (.resolved m2)
              | _ => .error
                  "content of the \x27plugins\x27 field must be a list in dynamic-plugins.yaml"
          | _ => .error
              "content of the \x27includes\x27 field must be a list in dynamic-plugins.yaml"
        | .null => .error typeErrorReadNull
        | _ => .error
            "content of the \x27includes\x27 field must be a list in dynamic-plugins.yaml"
      else .error (dynamicPluginsFile ++ " content must be a YAML object")

/-- Result of the synchronous npm pack invocation as the script consumes it:
exit status, captured standard output (the produced archive file name) and
captured standard error. -/
structure PackResult where
  status : Int
  stdout : String
  stderr : String

/-- The external collaborators of the install loop: the npm pack command keyed by
the package path it is invoked with, fs.realpathSync (none models the ENOENT
throw on a path that does not exist), the entry list of a produced archive, and
the openssl digest pipeline. -/
structure InstallEnv where
  npmPack : String → PackResult
  realpath : String → Option String
  archiveEntries : String → List TarEntry
  dgst : String → String → String

/-- Observable side-effecting steps of the install loop, recorded in order. -/
inductive InstallAction where
  | skipped (pkg : String)
  | packed (packagePath : String)
  | verifiedIntegrity (pkg : String)
  | cleanedDirectory (dir : String)
  | extracted (archive : String) (written : List String)
  | removedArchive (archive : String)
  | mergedConfig (pkg : String)
  deriving DecidableEq

/-- path.join as used by the script on already clean segments (no normalization
is modelled). -/
def pathJoin (a b : String) : String := a ++ "/" ++ b

/-- Replacement of the first occurrence of a pattern in a character list. -/
def replaceFirstAux (pat repl : List Char) : List Char → List Char
  | [] => []
  | c :: rest =>
    if pat.isPrefixOf (c :: rest) then repl ++ (c :: rest).drop pat.length
    else c :: replaceFirstAux pat repl rest

/-- JavaScript String.replace with a string pattern replaces only the first
occurrence; used for archive.replace(.tgz, empty). -/
def replaceFirst (s pat r : String) : String :=
  String.mk (replaceFirstAux pat.data r.data s.data)

/-- The FetchError message raised when npm pack reports a non-zero status,
carrying the trimmed captured standard error. -/
def fetchErrorMsg (pkg stderrTrimmed : String) : String :=
  "Error while installing plugin " ++ pkg ++ " with \x27npm pack\x27: " ++ stderrTrimmed

/-- Model of the error fs.realpathSync throws when the target directory does not
exist. -/
def realpathErrMsg (dir : String) : String :=
  "ENOENT: no such file or directory, lstat \x27" ++ dir ++ "\x27"

/-- The error raised when a non-local package carries no integrity field while
integrity checking is enabled. -/
def noIntegrityMsg (pkg : String) : String :=
  "No integrity hash provided for Package " ++ pkg

/-- The package path handed to npm pack: the current working directory joined
with the reference minus its ./ marker for a local package, the registry
reference itself otherwise. -/
def packagePathOf (cwd pkg : String) : String :=
  if jsStartsWith pkg "./" then pathJoin cwd (jsSlice pkg 2) else pkg

/-- The disabled test of the loop: disabled in plugin && plugin.disabled === true. -/
def pluginDisabled (plugin : JValue) : Except String Bool :=
  match jsHasProp plugin "disabled" with
  | .error e => .error e
  | .ok has =>
    if has = false then .ok false
    else
      match jsRead plugin "disabled" with
      | .error e => .error e
      | .ok v => .ok (decide (v = some (.bool true)))

/-- The tail of one loop iteration after a successful npm pack (lines 294-337):
integrity verification when applicable, realpath resolution of the target
directory, its removal and recreation, extraction, archive deletion, and the
plugin configuration merge. -/
def installAfterPack (env : InstallEnv) (maxEntrySize : Nat) (runVerify : Bool)
    (plugin : JValue) (pkg : String) (archive : String) (globalConfig : JValue) :
    List InstallAction × Except String JValue :=
  let verifyStep : Except String Unit :=
    if runVerify then verifyPackageIntegrity plugin archive env.dgst else .ok ()
  match verifyStep with
  | .error e => ([], .error e)
  | .ok _ =>
    let verifyActs := if runVerify then [InstallAction.verifiedIntegrity pkg] else []
    let directory := replaceFirst archive ".tgz" ""
    match env.realpath directory with
    | none => (verifyActs, .error (realpathErrMsg directory))
    | some _ =>
      let acts1 := verifyActs ++ [InstallAction.cleanedDirectory directory]
      let ex := extractArchive maxEntrySize (env.archiveEntries archive)
      match ex.2 with
      | some msg => (acts1 ++ [InstallAction.extracted archive ex.1], .error msg)
      | none =>
        let acts2 := acts1 ++ [InstallAction.extracted archive ex.1, InstallAction.removedArchive archive]
        match jsHasProp plugin "pluginConfig" with
        | .error e => (acts2, .error e)
        | .ok hasPC =>
          if hasPC = false then (acts2, .ok globalConfig)
          else
            match jsRead plugin "pluginConfig" with
            | .error e => (acts2, .error e)
            | .ok cfgv =>
              match cfgv with
              | some cfg =>
                if isObjectLike cfg then
                  match merge cfg globalConfig "" with
                  | .error e => (acts2, .error e)
                  | .ok g2 => (acts2 ++ [InstallAction.mergedConfig pkg], .ok g2)
                else (acts2, .ok globalConfig)
              | none => (acts2, .ok globalConfig)

/-- One iteration of the install loop (lines 253-338) for one resolved plugin:
skip when disabled, enforce the mandatory-integrity rule for non-local packages,
invoke npm pack, and on success hand over to installAfterPack. -/
def installPlugin (env : InstallEnv) (dynamicPluginsRoot cwd : String)
    (maxEntrySize : Nat) (skipIntegrityCheck : Bool) (plugin : JValue)
    (globalConfig : JValue) : List InstallAction × Except String JValue :=
  match jsRead plugin "package" with
  | .error e => ([], .error e)
  | .ok pkgv =>
    match pluginDisabled plugin with
    | .error e => ([], .error e)
    | .ok disabled =>
      if disabled then ([InstallAction.skipped (jsTemplateStr pkgv)], .ok globalConfig)
      else
        match pkgv with
        | some (.str pkg) =>
          let packageIsLocal := jsStartsWith pkg "./"
          match jsHasProp plugin "integrity" with
          | .error e => ([], .error e)
          | .ok hasIntegrity =>
            if !packageIsLocal && !skipIntegrityCheck && !hasIntegrity then
              ([], .error (noIntegrityMsg pkg))
            else
              let packagePath := packagePathOf cwd pkg
              let completed := env.npmPack packagePath
              if completed.status ≠ 0 then
                ([InstallAction.packed packagePath],
                  .error (fetchErrorMsg pkg (jsTrim completed.stderr)))
              else
                let archive := pathJoin dynamicPluginsRoot (jsTrim completed.stdout)
                let r := installAfterPack env maxEntrySize
                  (!packageIsLocal && !skipIntegrityCheck) plugin pkg archive globalConfig
                (InstallAction.packed packagePath :: r.1, r.2)
        | _ => ([], .error typeErrorStartsWith)

/-- Sequential processing of the resolved plugins: the first error aborts the
whole run, keeping the actions already performed. -/
def installAll (env : InstallEnv) (root cwd : String) (maxE : Nat) (skip : Bool) :
    List (String × JValue) → JValue → List InstallAction × Except String JValue
  | [], g => ([], .ok g)
  | (_, p) :: rest, g =>
    let r := installPlugin env root cwd maxE skip p g
    match r.2 with
    | .error e => (r.1, .error e)
    | .ok g2 =>
      let r2 := installAll env root cwd maxE skip rest g2
      (r.1 ++ r2.1, r2.2)

/-- The globalConfig accumulator created at the start of main. -/
def initialGlobalConfig : JValue :=
  .obj (.cons "dynamicPlugins"
    (.obj (.cons "rootDirectory" (.str "dynamic-plugins-root") .nil)) .nil)

/-- The fixed output artifact path under the installation root. -/
def globalConfigPath (root : String) : String :=
  pathJoin root "app-config.dynamic-plugins.yaml"

/-- Outcome of one whole run: process exit code, the content written to the
output artifact at globalConfigPath (none when the run aborted before writing
it, some none for the empty file of the short-circuit paths, some (some g) for
yaml.dump of the final global configuration), and the install actions
performed. -/
structure MainResult where
  exitCode : Nat
  output : Option (Option JValue)
  actions : List InstallAction
  deriving DecidableEq

/-- The main function plus the top-level catch: resolution, the install loop and
the final artifact write, with any error turned into exit status 1. -/
def runMain (files : List (String × Option JValue)) (env : InstallEnv)
    (root cwd : String) (maxE : Nat) (skip : Bool) : MainResult :=
  match resolvePlugins files with
  | .error _ => ⟨1, none, []⟩
  | .ok .noManifest => ⟨0, some none, []⟩
  | .ok .emptyManifest => ⟨0, some none, []⟩
  | .ok (.resolved allPlugins) =>
    let r := installAll env root cwd maxE skip allPlugins initialGlobalConfig
    match r.2 with
    | .error _ => ⟨1, none, r.1⟩
    | .ok g => ⟨0, some (some g), r.1⟩

/-! ### Helper notions for the theorems -/

/-- Substring test used to state that an error message does or does not mention
a given text. -/
def listContainsSub (sub : List Char) : List Char → Bool
  | [] => sub.isEmpty
  | c :: rest => sub.isPrefixOf (c :: rest) || listContainsSub sub rest

/-- String-level substring test (statement-side device, not part of the
script). -/
def strContains (s sub : String) : Bool :=
  listContainsSub sub.data s.data

/-- Coarse well-formedness of base64 text: every character is from the base64
alphabet.  A string failing this is certainly not valid base64. -/
def isBase64Charset (s : String) : Bool :=
  s.data.all (fun c => c.isAlphanum || c == '+' || c == '/' || c == '=')

/-- Inversion of an accepting run of the extraction filter. -/
theorem filterEntry_ok_inv (maxE : Nat) (e : TarEntry) (n : String)
    (h : filterEntry maxE e = .ok n) :
    jsStartsWith e.name "package/" = true ∧ e.size ≤ maxE ∧ n = jsSlice e.name 8 := by
  unfold filterEntry at h
  split at h
  · simp at h
  · split at h
    · simp at h
    · next hpre hsize =>
      refine ⟨by simpa using hpre, by omega, by simpa using h.symm⟩

/-- An entry of the archive whose declared size exceeds the ceiling makes the
extraction stream abort. -/
theorem extractArchive_aborts_of_oversized (maxE : Nat) (e : TarEntry)
    (entries : List TarEntry) (he : e ∈ entries) (hs : e.size > maxE) :
    (extractArchive maxE entries).2.isSome = true := by
  induction entries with
  | nil => simp at he
  | cons f rest ih =>
    cases hf : filterEntry maxE f with
    | error msg => simp [extractArchive, hf]
    | ok n =>
      rcases List.mem_cons.mp he with rfl | hmem
      · obtain ⟨_, hsize, _⟩ := filterEntry_ok_inv maxE e n hf
        omega
      · simpa [extractArchive, hf] using ih hmem

/-! ### C2 — path-marker enforcement and stripping during extraction -/

/-- C2: every archive entry is accepted only when its stored path begins with
package/; an entry not under that marker aborts the whole extraction (the
result carries an aborting message) and no file is written for it, every
written path coming from an accepted entry with the 8-character marker
stripped before it is placed relative to the target directory. -/
theorem extraction_requires_package_marker_and_strips_it (maxE : Nat)
    (entries : List TarEntry) :
    ((∃ e ∈ entries, jsStartsWith e.name "package/" = false) →
      (extractArchive maxE entries).2.isSome = true) ∧
    (∀ p ∈ (extractArchive maxE entries).1,
      ∃ e ∈ entries, jsStartsWith e.name "package/" = true ∧ p = jsSlice e.name 8) := by
  induction entries with
  | nil => simp [extractArchive]
  | cons e rest ih =>
    cases hf : filterEntry maxE e with
    | error msg =>
      refine ⟨fun _ => by simp [extractArchive, hf], fun p hp => ?_⟩
      simp [extractArchive, hf] at hp
    | ok n =>
      obtain ⟨hpre, _, hn⟩ := filterEntry_ok_inv maxE e n hf
      refine ⟨fun hex => ?_, fun p hp => ?_⟩
      · obtain ⟨e2, he2, hbad⟩ := hex
        rcases List.mem_cons.mp he2 with rfl | he2
        · rw [hpre] at hbad; exact absurd hbad (by simp)
        · simpa [extractArchive, hf] using ih.1 ⟨e2, he2, hbad⟩
      · simp only [extractArchive, hf] at hp
        rcases List.mem_cons.mp hp with rfl | hp
        · exact ⟨e, List.mem_cons_self e rest, hpre, hn⟩
        · obtain ⟨e2, he2, h1, h2⟩ := ih.2 p hp
          exact ⟨e2, List.mem_cons_of_mem e he2, h1, h2⟩

/-- Witness for C2 at the traversal example of the specification: an archive
with an accepted entry and the entry evil/../../etc/passwd aborts with the
path-violation message, and the only written file is the stripped accepted
one. -/
theorem extraction_requires_package_marker_witness :
    (extractArchive 20000000
      [⟨"package/index.js", 10, 10⟩, ⟨"evil/../../etc/passwd", 10, 10⟩]).2.isSome = true ∧
    (extractArchive 20000000
      [⟨"package/index.js", 10, 10⟩, ⟨"evil/../../etc/passwd", 10, 10⟩]).2 =
      some (archivePrefixMsg "evil/../../etc/passwd") ∧
    (extractArchive 20000000
      [⟨"package/index.js", 10, 10⟩, ⟨"evil/../../etc/passwd", 10, 10⟩]).1 =
      ["index.js"] :=
  ⟨(extraction_requires_package_marker_and_strips_it 20000000
      [⟨"package/index.js", 10, 10⟩, ⟨"evil/../../etc/passwd", 10, 10⟩]).1
      ⟨⟨"evil/../../etc/passwd", 10, 10⟩, by decide, by decide⟩,
    by decide, by decide⟩

/-! ### C7 — declared-size ceiling -/

/-- C7: an entry whose declared size exceeds maxEntrySize is rejected by the
filter and aborts the extraction even when its actual content is smaller
(the filter result does not depend on actualSize at all); within the ceiling
the only possible rejection is the path-marker violation, never the size
check. -/
theorem oversized_entry_rejected (maxE : Nat) (e : TarEntry)
    (entries : List TarEntry) :
    (e.size > maxE → ∃ m, filterEntry maxE e = .error m) ∧
    (e.size ≤ maxE → ∀ m, filterEntry maxE e = .error m → m = archivePrefixMsg e.name) ∧
    (∀ a, filterEntry maxE ⟨e.name, e.size, a⟩ = filterEntry maxE e) ∧
    (e ∈ entries → e.size > maxE → (extractArchive maxE entries).2.isSome = true) := by
  refine ⟨fun hs => ?_, fun hs m hm => ?_, fun a => rfl,
    fun he hs => extractArchive_aborts_of_oversized maxE e entries he hs⟩
  · unfold filterEntry
    rw [if_pos hs]
    split
    · exact ⟨_, rfl⟩
    · exact ⟨_, rfl⟩
  · unfold filterEntry at hm
    split at hm
    · exact (Except.error.inj hm).symm
    · split at hm
      · next h => exact absurd h (by omega)
      · simp at hm

/-- Witness for C7 at the default ceiling of 20000000 bytes: a conforming path
with declared size 20000001 and actual content of 10 bytes is rejected, and the
same entry declared at 20000000 cannot be rejected by the size check. -/
theorem oversized_entry_rejected_witness :
    (extractArchive 20000000 [⟨"package/big.bin", 20000001, 10⟩]).2.isSome = true ∧
    filterEntry 20000000 ⟨"package/big.bin", 20000001, 10⟩ =
      .error (zipBombMsg "package/big.bin") ∧
    filterEntry 20000000 ⟨"package/big.bin", 20000000, 10⟩ = .ok "big.bin" :=
  ⟨(oversized_entry_rejected 20000000 ⟨"package/big.bin", 20000001, 10⟩
      [⟨"package/big.bin", 20000001, 10⟩]).2.2.2 (by decide) (by decide),
   by decide, by decide⟩

/-! ### C9 — missing or empty root manifest -/

/-- C9: when the root manifest file is absent, or exists with blank content
(yaml.load yielding undefined) or the empty-string document, the run writes the
empty output artifact, performs no install action at all, and exits with
status 0. -/
theorem empty_manifest_short_circuits (files : List (String × Option JValue))
    (env : InstallEnv) (root cwd : String) (maxE : Nat) (skip : Bool) :
    (fileLookup files dynamicPluginsFile = none →
      runMain files env root cwd maxE skip = ⟨0, some none, []⟩) ∧
    (fileLookup files dynamicPluginsFile = some none →
      runMain files env root cwd maxE skip = ⟨0, some none, []⟩) ∧
    (fileLookup files dynamicPluginsFile = some (some (.str "")) →
      runMain files env root cwd maxE skip = ⟨0, some none, []⟩) := by
  refine ⟨fun h => ?_, fun h => ?_, fun h => ?_⟩ <;>
    simp [runMain, resolvePlugins, h]

/-- A concrete collaborator environment for witnesses: npm pack always succeeds
with an empty output, every path resolves, archives are empty, every digest is
the empty text. -/
def trivialEnv : InstallEnv where
  npmPack := fun _ => ⟨0, "", ""⟩
  realpath := fun p => some p
  archiveEntries := fun _ => []
  dgst := fun _ _ => ""

/-- Witness for C9: the empty filesystem (no manifest), a manifest parsed to
undefined, and the empty-string document all produce the empty artifact with
exit status 0 and no actions. -/
theorem empty_manifest_short_circuits_witness :
    runMain [] trivialEnv "r" "w" 20000000 false = ⟨0, some none, []⟩ ∧
    runMain [(dynamicPluginsFile, none)] trivialEnv "r" "w" 20000000 false =
      ⟨0, some none, []⟩ ∧
    runMain [(dynamicPluginsFile, some (.str ""))] trivialEnv "r" "w" 20000000 false =
      ⟨0, some none, []⟩ :=
  ⟨(empty_manifest_short_circuits [] trivialEnv "r" "w" 20000000 false).1 (by decide),
   (empty_manifest_short_circuits [(dynamicPluginsFile, none)] trivialEnv "r" "w"
      20000000 false).2.1 (by decide),
   (empty_manifest_short_circuits [(dynamicPluginsFile, some (.str ""))] trivialEnv
      "r" "w" 20000000 false).2.2 (by decide)⟩

/-! ### C3 and C4 — the merge algorithm -/

/-- Presence of a field agrees with the lookup being some value. -/
theorem objHas_eq_isSome (fs : JObj) (k : String) :
    objHas fs k = (objGet fs k).isSome :=
  match fs with
  | .nil => rfl
  | .cons k0 v r => by
    by_cases h : k0 = k <;> simp [objHas, objGet, h, objHas_eq_isSome r k]

/-- C3 (amended): a non-object-shaped fragment value fails the merge exactly
when the key already holds a different destination value; the raised message is
conflictMsg applied to the prefix of the current recursion level followed by the
key, a prefix the recursion resets to the parent key alone (last conjunct: the
level prefix passed from above is ignored by the recursion into object-like
values), and on an absent or equal key the value is set without error. -/
theorem merge_scalar_step_characterization (k : String) (v : JValue) (fs : JObj)
    (p : String) (hv : isObjectLike v = false) :
    (merge (.obj (.cons k v .nil)) (.obj fs) p = mergeFields (.cons k v .nil) (.obj fs) p) ∧
    (mergeFields (.cons k v .nil) (.obj fs) p = .error (conflictMsg (p ++ k)) ↔
      ∃ cur, objGet fs k = some cur ∧ cur ≠ v) ∧
    ((objGet fs k = some v ∨ objGet fs k = none) →
      mergeFields (.cons k v .nil) (.obj fs) p = .ok (.obj (objSet fs k v))) ∧
    (∀ w q1 q2, isObjectLike w = true →
      mergeFields (.cons k w .nil) (.obj fs) q1 = mergeFields (.cons k w .nil) (.obj fs) q2) := by
  have hh := objHas_eq_isSome fs k
  refine ⟨rfl, ?_, ?_, ?_⟩
  · cases hg : objGet fs k with
    | none =>
      rw [hg] at hh
      simp [mergeFields, hv, jsHasProp, jsRead, jsWrite, jsStrictNeq, hh, hg]
    | some cur =>
      rw [hg] at hh
      by_cases hcv : cur = v
      · subst hcv
        simp [mergeFields, hv, jsHasProp, jsRead, jsWrite, jsStrictNeq, hh, hg]
      · simp [mergeFields, hv, jsHasProp, jsRead, jsWrite, jsStrictNeq, hh, hg, hcv]
  · intro hor
    rcases hor with hg | hg <;>
      simp [mergeFields, hv, jsHasProp, jsRead, jsWrite, jsStrictNeq, hg, objHas_eq_isSome]
  · intro w q1 q2 hw
    simp [mergeFields, hw, jsRead]

/-- Counterexample for C3 as stated: merging the fragment a.b.c = 9 into a tree
holding a.b.c = 7 raises the conflict, but its message names only b.c — not the
fully-qualified path a.b.c, because the recursion replaces the accumulated
prefix by the parent key alone — and mentions neither conflicting value. -/
theorem merge_conflict_message_counterexample :
    merge (.obj (.cons "a" (.obj (.cons "b" (.obj (.cons "c" (.num 9) .nil)) .nil)) .nil))
      (.obj (.cons "a" (.obj (.cons "b" (.obj (.cons "c" (.num 7) .nil)) .nil)) .nil)) "" =
      .error (conflictMsg "b.c") ∧
    strContains (conflictMsg "b.c") "a.b.c" = false ∧
    strContains (conflictMsg "b.c") "7" = false ∧
    strContains (conflictMsg "b.c") "9" = false := by decide

/-- Witness for C3 (amended) at the conflict example of the specification:
fragment x.y = 2 against destination x.y = 1 raises the conflict named x.y, and
re-merging the equal value x.y = 1 succeeds. -/
theorem merge_scalar_step_witness :
    mergeFields (.cons "y" (.num 2) .nil) (.obj (.cons "y" (.num 1) .nil)) "x." =
      .error (conflictMsg "x.y") ∧
    mergeFields (.cons "y" (.num 1) .nil) (.obj (.cons "y" (.num 1) .nil)) "x." =
      .ok (.obj (objSet (.cons "y" (.num 1) .nil) "y" (.num 1))) :=
  ⟨(merge_scalar_step_characterization "y" (.num 2) (.cons "y" (.num 1) .nil) "x."
      (by decide)).2.1.mpr ⟨.num 1, by decide, by decide⟩,
   (merge_scalar_step_characterization "y" (.num 1) (.cons "y" (.num 1) .nil) "x."
      (by decide)).2.2.1 (Or.inl (by decide))⟩

/-- C4 (amended): an array value in the fragment is object-like for the merge,
so it is recursed into entry by entry under its decimal index keys (a fresh
empty object node being created when the destination key is absent), rather
than being compared and assigned atomically. -/
theorem merge_array_recursion (k : String) (es : JList) (fs : JObj) (p : String)
    (hk : objGet fs k = none) :
    (mergeFields (.cons k (.arr es) .nil) (.obj fs) p =
      (match mergeElems 0 es (.obj .nil) (k ++ ".") with
       | .error e => .error e
       | .ok node => .ok (.obj (objSet fs k node)))) ∧
    (merge (.arr es) (.obj .nil) (k ++ ".") = mergeElems 0 es (.obj .nil) (k ++ ".")) ∧
    (∀ (i : Nat) (w : JValue) (gs : JObj) (q : String), isObjectLike w = false →
      objGet gs (toString i) = none →
      mergeElems i (.cons w .nil) (.obj gs) q = .ok (.obj (objSet gs (toString i) w))) := by
  refine ⟨?_, rfl, ?_⟩
  · cases hm : mergeElems 0 es (.obj .nil) (k ++ ".") with
    | error e => simp [mergeFields, isObjectLike, jsRead, jsWrite, hk, merge, hm]
    | ok node => simp [mergeFields, isObjectLike, jsRead, jsWrite, hk, merge, hm]
  · intro i w gs q hw hg
    simp [mergeElems, hw, jsHasProp, jsRead, jsWrite, jsStrictNeq, hg, objHas_eq_isSome]

/-- Counterexample for C4 as stated: merging the fragment k = [1, 2] into an
empty tree does not store the array atomically; it recurses and stores the
index-keyed object with fields 0 = 1 and 1 = 2 under k instead. -/
theorem merge_array_atomicity_counterexample :
    merge (.obj (.cons "k" (.arr (.cons (.num 1) (.cons (.num 2) .nil))) .nil))
      (.obj .nil) "" =
      .ok (.obj (.cons "k" (.obj (.cons "0" (.num 1) (.cons "1" (.num 2) .nil))) .nil)) ∧
    merge (.obj (.cons "k" (.arr (.cons (.num 1) (.cons (.num 2) .nil))) .nil))
      (.obj .nil) "" ≠
      .ok (.obj (.cons "k" (.arr (.cons (.num 1) (.cons (.num 2) .nil))) .nil)) := by
  decide

/-- Witness for C4 (amended) at a one-element array fragment: the recursion
stores the index-keyed object under k, and the element is written under the
index key 0. -/
theorem merge_array_recursion_witness :
    mergeFields (.cons "k" (.arr (.cons (.num 1) .nil)) .nil) (.obj .nil) "" =
      .ok (.obj (.cons "k" (.obj (.cons "0" (.num 1) .nil)) .nil)) ∧
    mergeElems 0 (.cons (.num 1) .nil) (.obj .nil) "q" =
      .ok (.obj (.cons "0" (.num 1) .nil)) :=
  ⟨((merge_array_recursion "k" (.cons (.num 1) .nil) .nil "" (by decide)).1).trans
     (by decide),
   (merge_array_recursion "k" (.cons (.num 1) .nil) .nil "" (by decide)).2.2
     0 (.num 1) .nil "q" (by decide) (by decide)⟩

/-! ### C5 — field-level override of included definitions -/

/-- Assignment followed by lookup of the same key. -/
theorem objGet_objSet_self (fs : JObj) (k : String) (v : JValue) :
    objGet (objSet fs k v) k = some v :=
  match fs with
  | .nil => by simp [objSet, objGet]
  | .cons k0 w r => by
    by_cases h : k0 = k <;>
      simp [objSet, objGet, h, objGet_objSet_self r k v]

/-- Assignment leaves other keys unchanged. -/
theorem objGet_objSet_ne (fs : JObj) (k k2 : String) (v : JValue) (h : k ≠ k2) :
    objGet (objSet fs k v) k2 = objGet fs k2 :=
  match fs with
  | .nil => by simp [objSet, objGet, h]
  | .cons k0 w r => by
    by_cases h0 : k0 = k
    · subst h0
      simp [objSet, objGet, h]
    · simp [objSet, objGet, h0, objGet_objSet_ne r k k2 v h]

/-- Uniqueness of the keys of an object, the shape every object parsed from a
YAML mapping has. -/
def objNodupKeys : JObj → Bool
  | .nil => true
  | .cons k _ r => !objHas r k && objNodupKeys r

/-- C5: the root-manifest redeclaration of an included package is a field-level
override: the result keeps the existing package field, every field of the new
entry except package replaces the corresponding existing field, and fields the
new entry does not mention keep their included value. -/
theorem root_override_field_level (efs nfs : JObj) (hn : objNodupKeys nfs = true) :
    ∃ rfs, overridePlugin (.obj efs) nfs = .ok (.obj rfs) ∧
      objGet rfs "package" = objGet efs "package" ∧
      (∀ k, k ≠ "package" →
        objGet rfs k = match objGet nfs k with
          | some w => some w
          | none => objGet efs k) :=
  match nfs with
  | .nil => ⟨efs, rfl, rfl, fun k _ => by simp [objGet]⟩
  | .cons k0 v0 rest => by
    have hn' : objNodupKeys rest = true := by
      simp [objNodupKeys] at hn; exact hn.2
    have hhas : objHas rest k0 = false := by
      simp [objNodupKeys] at hn; simpa using hn.1
    have hrestnone : objGet rest k0 = none := by
      have h := objHas_eq_isSome rest k0
      rw [hhas] at h
      cases hg : objGet rest k0 with
      | none => rfl
      | some w => rw [hg] at h; simp at h
    by_cases hp : k0 = "package"
    · subst hp
      obtain ⟨rfs, h1, h2, h3⟩ := root_override_field_level efs rest hn'
      refine ⟨rfs, by simpa [overridePlugin] using h1, h2, ?_⟩
      intro k hk
      have h4 := h3 k hk
      have hcons : objGet (JObj.cons "package" v0 rest) k = objGet rest k := by
        simp [objGet, Ne.symm hk]
      rw [hcons]
      exact h4
    · obtain ⟨rfs, h1, h2, h3⟩ :=
        root_override_field_level (objSet efs k0 v0) rest hn'
      refine ⟨rfs, ?_, ?_, ?_⟩
      · simpa [overridePlugin, hp, jsWrite] using h1
      · rw [h2, objGet_objSet_ne efs k0 "package" v0 hp]
      · intro k hk
        have h4 := h3 k hk
        rcases eq_or_ne k k0 with rfl | hkk
        · rw [hrestnone] at h4
          simp only [objGet_objSet_self] at h4
          rw [h4]
          simp [objGet]
        · have hne : k0 ≠ k := fun h => hkk h.symm
          have hcons : objGet (JObj.cons k0 v0 rest) k = objGet rest k := by
            simp [objGet, hne]
          rw [hcons]
          cases hg : objGet rest k with
          | some w => rw [hg] at h4; simpa using h4
          | none =>
            rw [hg, objGet_objSet_ne efs k0 k v0 hne] at h4
            simpa using h4

/-- The included definition of the override example of the specification. -/
def incPluginEx : JObj :=
  .cons "package" (.str "pp") (.cons "disabled" (.bool false)
    (.cons "pluginConfig" (.obj (.cons "a" (.num 1) .nil)) .nil))

/-- The root-manifest redeclaration of the override example of the
specification. -/
def rootPluginEx : JObj :=
  .cons "package" (.str "pp") (.cons "integrity" (.str "sha256-X") .nil)

/-- The resolved definition of the override example. -/
def overriddenEx : JObj :=
  .cons "package" (.str "pp") (.cons "disabled" (.bool false)
    (.cons "pluginConfig" (.obj (.cons "a" (.num 1) .nil))
      (.cons "integrity" (.str "sha256-X") .nil)))

/-- Witness for C5 at the example of the specification: an include with
disabled false and pluginConfig a = 1 overridden by a root entry adding an
integrity resolves to the union with the integrity added. -/
theorem root_override_field_level_witness :
    overridePlugin (.obj incPluginEx) rootPluginEx = .ok (.obj overriddenEx) ∧
    objGet overriddenEx "package" = some (.str "pp") ∧
    objGet overriddenEx "disabled" = some (.bool false) ∧
    objGet overriddenEx "pluginConfig" = some (.obj (.cons "a" (.num 1) .nil)) ∧
    objGet overriddenEx "integrity" = some (.str "sha256-X") := by
  obtain ⟨rfs, h1, h2, h3⟩ :=
    root_override_field_level incPluginEx rootPluginEx (by decide)
  have h0 : overridePlugin (.obj incPluginEx) rootPluginEx = .ok (.obj overriddenEx) := by
    decide
  have hr2 : rfs = overriddenEx := by
    injection Except.ok.inj (h1.symm.trans h0)
  subst hr2
  exact ⟨h0, h2, h3 "disabled" (by decide), h3 "pluginConfig" (by decide),
    h3 "integrity" (by decide)⟩

/-! ### C8 — validation of the package field during resolution -/

/-- An entry carrying a string package field (the shape the root-manifest loop
demands). -/
def hasStringPackage (p : JValue) : Bool :=
  match p with
  | .obj fs =>
    match objGet fs "package" with
    | some (.str _) => true
    | _ => false
  | _ => false

/-- The field-level override of an object never fails. -/
theorem overridePlugin_obj_ok (efs nfs : JObj) :
    ∃ rfs, overridePlugin (.obj efs) nfs = .ok (.obj rfs) :=
  match nfs with
  | .nil => ⟨efs, rfl⟩
  | .cons k v rest => by
    by_cases h : k = "package"
    · obtain ⟨rfs, hr⟩ := overridePlugin_obj_ok efs rest
      exact ⟨rfs, by simpa [overridePlugin, h] using hr⟩
    · obtain ⟨rfs, hr⟩ := overridePlugin_obj_ok (objSet efs k v) rest
      exact ⟨rfs, by simpa [overridePlugin, h, jsWrite] using hr⟩

/-- Every binding of the map after an insertion was already there or is the
inserted one. -/
theorem mem_pmUpsert (m : List (String × JValue)) (k : String) (v : JValue) :
    ∀ kv ∈ pmUpsert m k v, kv ∈ m ∨ kv = (k, v) := by
  induction m with
  | nil => simp [pmUpsert]
  | cons h0 r ih =>
    intro kv hkv
    by_cases hk : h0.1 = k
    · simp [pmUpsert, hk] at hkv
      rcases hkv with rfl | hkv
      · right; rw [← hk]
      · left; exact List.mem_cons_of_mem _ hkv
    · simp [pmUpsert, hk] at hkv
      rcases hkv with rfl | hkv
      · left; exact List.mem_cons_self _ _
      · rcases ih kv hkv with hm | he
        · left; exact List.mem_cons_of_mem _ hm
        · right; exact he

/-- A successful lookup comes from a binding of the map. -/
theorem pmLookup_mem (m : List (String × JValue)) (k : String) (v : JValue)
    (h : pmLookup m k = some v) : (k, v) ∈ m := by
  induction m with
  | nil => simp [pmLookup] at h
  | cons h0 r ih =>
    obtain ⟨a, b⟩ := h0
    by_cases hk : a = k
    · subst hk
      simp [pmLookup] at h
      subst h
      exact List.mem_cons_self _ _
    · simp [pmLookup, hk] at h
      exact List.mem_cons_of_mem _ (ih h)

/-- Reading the package property only throws on a null entry. -/
theorem jsRead_package_ok (p : JValue) (hp : p ≠ .null) :
    ∃ o, jsRead p "package" = .ok o := by
  cases p with
  | null => exact absurd rfl hp
  | obj fs => exact ⟨_, rfl⟩
  | str s => exact ⟨none, rfl⟩
  | num n => exact ⟨none, rfl⟩
  | bool b => exact ⟨none, rfl⟩
  | arr es =>
    refine ⟨none, ?_⟩
    have h : parseArrayIndex "package" = none := by decide
    simp [jsRead, h]

/-- A root-manifest list of object entries containing one without a string
package makes the root loop fail with the ManifestError text, whatever the
accumulated map of object definitions holds. -/
theorem processRootPlugins_error_of_bad (ps : JList) (m : List (String × JValue))
    (hobj : ∀ p ∈ jlistToList ps, ∃ fs, p = JValue.obj fs)
    (hm : ∀ kv ∈ m, ∃ fs, kv.2 = JValue.obj fs)
    (hbad : ∃ p ∈ jlistToList ps, hasStringPackage p = false) :
    processRootPlugins ps m = .error rootPackageMsg :=
  match ps with
  | .nil => by simp [jlistToList] at hbad
  | .cons p rest => by
    obtain ⟨fs, rfl⟩ := hobj p (by simp [jlistToList])
    have hobj' : ∀ q ∈ jlistToList rest, ∃ gs, q = JValue.obj gs := fun q hq =>
      hobj q (by simp [jlistToList, hq])
    cases hg : objGet fs "package" with
    | none => simp [processRootPlugins, jsRead, hg]
    | some w =>
      cases w with
      | str pkg =>
        have hbad' : ∃ q ∈ jlistToList rest, hasStringPackage q = false := by
          obtain ⟨q, hq, hqbad⟩ := hbad
          rcases List.mem_cons.mp (by simpa [jlistToList] using hq) with rfl | hq2
          · exfalso; simp [hasStringPackage, hg] at hqbad
          · exact ⟨q, hq2, hqbad⟩
        cases hl : pmLookup m pkg with
        | none =>
          have hm' : ∀ kv ∈ pmUpsert m pkg (JValue.obj fs),
              ∃ gs, kv.2 = JValue.obj gs := by
            intro kv hkv
            rcases mem_pmUpsert m pkg (JValue.obj fs) kv hkv with hmem | rfl
            · exact hm kv hmem
            · exact ⟨fs, rfl⟩
          have hrec := processRootPlugins_error_of_bad rest
            (pmUpsert m pkg (JValue.obj fs)) hobj' hm' hbad'
          simpa [processRootPlugins, jsRead, hg, hl] using hrec
        | some v =>
          obtain ⟨efs, hefs⟩ := hm (pkg, v) (pmLookup_mem m pkg v hl)
          obtain ⟨rfs, hr⟩ := overridePlugin_obj_ok efs fs
          have hm' : ∀ kv ∈ pmUpsert m pkg (JValue.obj rfs),
              ∃ gs, kv.2 = JValue.obj gs := by
            intro kv hkv
            rcases mem_pmUpsert m pkg (JValue.obj rfs) kv hkv with hmem | rfl
            · exact hm kv hmem
            · exact ⟨rfs, rfl⟩
          have hrec := processRootPlugins_error_of_bad rest
            (pmUpsert m pkg (JValue.obj rfs)) hobj' hm' hbad'
          have hv : v = JValue.obj efs := hefs
          subst hv
          simp [processRootPlugins, jsRead, hg, hl, hr, hrec]
      | num n => simp [processRootPlugins, jsRead, hg]
      | bool b => simp [processRootPlugins, jsRead, hg]
      | null => simp [processRootPlugins, jsRead, hg]
      | arr es => simp [processRootPlugins, jsRead, hg]
      | obj gs => simp [processRootPlugins, jsRead, hg]

/-- The include-manifest loop never validates its entries: it succeeds on any
list free of null entries, package field or not. -/
theorem insertIncludePlugins_ok (ps : JList) (m : List (String × JValue))
    (h : ∀ p ∈ jlistToList ps, p ≠ JValue.null) :
    ∃ m2, insertIncludePlugins ps m = .ok m2 :=
  match ps with
  | .nil => ⟨m, rfl⟩
  | .cons p rest => by
    have hp : p ≠ JValue.null := h p (by simp [jlistToList])
    have hrest : ∀ q ∈ jlistToList rest, q ≠ JValue.null := fun q hq =>
      h q (by simp [jlistToList, hq])
    obtain ⟨o, ho⟩ := jsRead_package_ok p hp
    obtain ⟨m2, hm2⟩ := insertIncludePlugins_ok rest (pmUpsert m (jsTemplateStr o) p) hrest
    exact ⟨m2, by simp [insertIncludePlugins, ho, hm2]⟩

/-- C8 (amended): only root-manifest plugin entries are validated — an object
entry of the root list lacking a string package fails resolution with the
ManifestError text — while entries of an included manifest are inserted with no
validation at all (the include loop succeeds on any non-null entries, keyed by
the string coercion of their package value). -/
theorem root_package_checked_include_package_unchecked :
    (∀ (ps : JList) (m : List (String × JValue)),
      (∀ p ∈ jlistToList ps, ∃ fs, p = JValue.obj fs) →
      (∀ kv ∈ m, ∃ fs, kv.2 = JValue.obj fs) →
      (∃ p ∈ jlistToList ps, hasStringPackage p = false) →
      processRootPlugins ps m = .error rootPackageMsg) ∧
    (∀ (qs : JList) (m : List (String × JValue)),
      (∀ p ∈ jlistToList qs, p ≠ JValue.null) →
      ∃ m2, insertIncludePlugins qs m = .ok m2) :=
  ⟨processRootPlugins_error_of_bad, insertIncludePlugins_ok⟩

/-- The filesystem of the C8 counterexample: the root manifest pulls in one
include whose single plugin entry has no package field. -/
def includeFilesNoPackage : List (String × Option JValue) :=
  [ (dynamicPluginsFile,
      some (.obj (.cons "includes" (.arr (.cons (.str "inc.yaml") .nil)) .nil))),
    ("inc.yaml",
      some (.obj (.cons "plugins"
        (.arr (.cons (.obj (.cons "disabled" (.bool true) .nil)) .nil)) .nil))) ]

/-- Counterexample for C8 as stated: an included manifest entry lacking a
string package does not make resolution fail with a ManifestError; resolution
succeeds and files the entry under the coerced key undefined. -/
theorem include_entry_without_package_counterexample :
    resolvePlugins includeFilesNoPackage =
      .ok (.resolved [("undefined", .obj (.cons "disabled" (.bool true) .nil))]) ∧
    hasStringPackage (.obj (.cons "disabled" (.bool true) .nil)) = false := by decide

/-- Witness for C8 (amended): the same package-less entry fails the root loop
with the ManifestError text yet passes the include loop, filed under the
coerced key undefined. -/
theorem root_package_checked_witness :
    processRootPlugins (.cons (.obj (.cons "disabled" (.bool true) .nil)) .nil) [] =
      .error rootPackageMsg ∧
    insertIncludePlugins (.cons (.obj (.cons "disabled" (.bool true) .nil)) .nil) [] =
      .ok [("undefined", .obj (.cons "disabled" (.bool true) .nil))] :=
  ⟨root_package_checked_include_package_unchecked.1
      (.cons (.obj (.cons "disabled" (.bool true) .nil)) .nil) []
      (fun p hp => ⟨.cons "disabled" (.bool true) .nil, by simpa [jlistToList] using hp⟩)
      (fun kv hkv => absurd hkv (by simp))
      ⟨.obj (.cons "disabled" (.bool true) .nil), by simp [jlistToList], by decide⟩,
   by
    obtain ⟨m2, hm2⟩ := root_package_checked_include_package_unchecked.2
      (.cons (.obj (.cons "disabled" (.bool true) .nil)) .nil) []
      (fun p hp => by simp [jlistToList] at hp; subst hp; decide)
    have h0 : insertIncludePlugins
        (.cons (.obj (.cons "disabled" (.bool true) .nil)) .nil) [] =
        .ok [("undefined", .obj (.cons "disabled" (.bool true) .nil))] := by decide
    exact h0⟩

/-! ### C6 — invalid base64 in the integrity descriptor -/

/-- The plugin of the C6 failing input: a well-formed descriptor shape whose
digest part ### lies outside the base64 alphabet. -/
def invalidBase64Plugin : JValue :=
  .obj (.cons "package" (.str "p") (.cons "integrity" (.str "sha256-###") .nil))

/-- C6 (behaviour of the code at the failing input): the invalid-base64
rejection never fires, because Node Buffer.from with the base64 encoding does
not throw on a string input — the try/catch of the script is dead code, recorded
by nodeBase64DecodeThrows — so verification proceeds to the hashing stage: its
result depends on the digest pipeline output, and with a pipeline answering
AAAA it fails with the digest-mismatch message carrying that computed hash,
not with the invalid-base64 message. -/
theorem invalid_base64_still_hashed :
    (∀ (dgst : String → String → String) (archive : String),
      verifyPackageIntegrity invalidBase64Plugin archive dgst =
        (if "###" ≠ jsTrim (dgst "sha256" archive) then
          .error (hashMismatchMsg "p" (jsTrim (dgst "sha256" archive)) "###")
        else .ok ())) ∧
    verifyPackageIntegrity invalidBase64Plugin "a.tgz" (fun _ _ => "AAAA") =
      .error (hashMismatchMsg "p" "AAAA" "###") ∧
    verifyPackageIntegrity invalidBase64Plugin "a.tgz" (fun _ _ => "AAAA") ≠
      .error (invalidBase64Msg "p" "###") ∧
    nodeBase64DecodeThrows "###" = false ∧
    isBase64Charset "###" = false :=
  ⟨fun _ _ => rfl, by decide, by decide, rfl, by decide⟩

/-! ### C1 — npm pack failure handling -/

/-- C1: for a plugin that reaches the pack step (enabled, string package, past
the mandatory-integrity gate), a non-zero npm pack status makes the iteration
fail with the FetchError message carrying the trimmed captured standard error,
while a zero status hands the pipeline over to installAfterPack — the
verification and extraction stages — on the archive named by the trimmed
standard output. -/
theorem npm_pack_nonzero_is_fetch_error (env : InstallEnv) (root cwd : String)
    (maxE : Nat) (skip : Bool) (plugin g : JValue) (pkg : String) (hasInteg : Bool)
    (h1 : jsRead plugin "package" = .ok (some (.str pkg)))
    (h2 : pluginDisabled plugin = .ok false)
    (h3 : jsHasProp plugin "integrity" = .ok hasInteg)
    (h4 : (!(jsStartsWith pkg "./") && !skip && !hasInteg) = false) :
    ((env.npmPack (packagePathOf cwd pkg)).status ≠ 0 →
      installPlugin env root cwd maxE skip plugin g =
        ([InstallAction.packed (packagePathOf cwd pkg)],
         .error (fetchErrorMsg pkg (jsTrim (env.npmPack (packagePathOf cwd pkg)).stderr)))) ∧
    ((env.npmPack (packagePathOf cwd pkg)).status = 0 →
      installPlugin env root cwd maxE skip plugin g =
        (InstallAction.packed (packagePathOf cwd pkg) ::
          (installAfterPack env maxE (!(jsStartsWith pkg "./") && !skip) plugin pkg
            (pathJoin root (jsTrim (env.npmPack (packagePathOf cwd pkg)).stdout)) g).1,
         (installAfterPack env maxE (!(jsStartsWith pkg "./") && !skip) plugin pkg
            (pathJoin root (jsTrim (env.npmPack (packagePathOf cwd pkg)).stdout)) g).2)) := by
  constructor <;> intro h5 <;>
    simp [installPlugin, h1, h2, h3, h4, h5]

/-- An environment whose npm pack reports failure with diagnostic text. -/
def envPackFail : InstallEnv where
  npmPack := fun _ => ⟨1, "", " boom \n"⟩
  realpath := fun p => some p
  archiveEntries := fun _ => []
  dgst := fun _ _ => ""

/-- A minimal enabled local plugin (integrity not mandatory for it). -/
def localPluginEx : JValue := .obj (.cons "package" (.str "./p") .nil)

/-- Witness for C1: with a failing packer the iteration raises the FetchError
carrying the trimmed standard error; with a succeeding packer it proceeds into
installAfterPack. -/
theorem npm_pack_nonzero_is_fetch_error_witness :
    installPlugin envPackFail "r" "w" 20000000 false localPluginEx initialGlobalConfig =
      ([InstallAction.packed (packagePathOf "w" "./p")],
        .error (fetchErrorMsg "./p" (jsTrim " boom \n"))) ∧
    installPlugin trivialEnv "r" "w" 20000000 false localPluginEx initialGlobalConfig =
      (InstallAction.packed (packagePathOf "w" "./p") ::
        (installAfterPack trivialEnv 20000000 (!(jsStartsWith "./p" "./") && !false)
          localPluginEx "./p" (pathJoin "r" (jsTrim "")) initialGlobalConfig).1,
       (installAfterPack trivialEnv 20000000 (!(jsStartsWith "./p" "./") && !false)
          localPluginEx "./p" (pathJoin "r" (jsTrim "")) initialGlobalConfig).2) :=
  ⟨(npm_pack_nonzero_is_fetch_error envPackFail "r" "w" 20000000 false localPluginEx
      initialGlobalConfig "./p" false (by decide) (by decide) (by decide) (by decide)).1
      (by decide),
   (npm_pack_nonzero_is_fetch_error trivialEnv "r" "w" 20000000 false localPluginEx
      initialGlobalConfig "./p" false (by decide) (by decide) (by decide) (by decide)).2
      (by decide)⟩

/-! ### C10 — realpath of a missing target directory -/

/-- C10: the loop resolves the target directory with fs.realpathSync before
removing and recreating it; when that directory does not exist (the plugin was
never installed into this root), the call throws and the iteration aborts with
the filesystem error before any directory cleanup or extraction happens; in
general an extraction can only have happened when realpath succeeded on the
target directory, and an aborted iteration aborts the whole remaining run. -/
theorem missing_target_directory_aborts (env : InstallEnv) (maxE : Nat)
    (runVerify : Bool) (plugin : JValue) (pkg archive : String) (g : JValue)
    (hv : runVerify = true → verifyPackageIntegrity plugin archive env.dgst = .ok ())
    (hr : env.realpath (replaceFirst archive ".tgz" "") = none) :
    ((installAfterPack env maxE runVerify plugin pkg archive g).2 =
      .error (realpathErrMsg (replaceFirst archive ".tgz" ""))) ∧
    (∀ a w, InstallAction.extracted a w ∉
      (installAfterPack env maxE runVerify plugin pkg archive g).1) ∧
    (∀ d, InstallAction.cleanedDirectory d ∉
      (installAfterPack env maxE runVerify plugin pkg archive g).1) ∧
    (∀ (env2 : InstallEnv) (maxE2 : Nat) (rv2 : Bool) (plugin2 : JValue)
        (pkg2 archive2 : String) (g2 : JValue) (a : String) (w : List String),
      InstallAction.extracted a w ∈
        (installAfterPack env2 maxE2 rv2 plugin2 pkg2 archive2 g2).1 →
      (env2.realpath (replaceFirst archive2 ".tgz" "")).isSome = true) ∧
    (∀ (env2 : InstallEnv) (root2 cwd2 : String) (maxE2 : Nat) (skip2 : Bool)
        (k : String) (p g2 : JValue) (rest : List (String × JValue))
        (acts : List InstallAction) (e : String),
      installPlugin env2 root2 cwd2 maxE2 skip2 p g2 = (acts, .error e) →
      (installAll env2 root2 cwd2 maxE2 skip2 ((k, p) :: rest) g2).2 = .error e) := by
  refine ⟨?_, ?_, ?_, ?_, ?_⟩
  · cases hrv : runVerify with
    | true => simp [installAfterPack, hv hrv, hr]
    | false => simp [installAfterPack, hr]
  · intro a w
    cases hrv : runVerify with
    | true => simp [installAfterPack, hv hrv, hr]
    | false => simp [installAfterPack, hr]
  · intro d
    cases hrv : runVerify with
    | true => simp [installAfterPack, hv hrv, hr]
    | false => simp [installAfterPack, hr]
  · intro env2 maxE2 rv2 plugin2 pkg2 archive2 g2 a w hmem
    cases rv2 with
    | false =>
      cases hrp : env2.realpath (replaceFirst archive2 ".tgz" "") with
      | none => simp [installAfterPack, hrp] at hmem
      | some q => simp [hrp]
    | true =>
      cases hvs : verifyPackageIntegrity plugin2 archive2 env2.dgst with
      | error e => simp [installAfterPack, hvs] at hmem
      | ok u =>
        cases hrp : env2.realpath (replaceFirst archive2 ".tgz" "") with
        | none => simp [installAfterPack, hvs, hrp] at hmem
        | some q => simp [hrp]
  · intro env2 root2 cwd2 maxE2 skip2 k p g2 rest acts e h
    simp [installAll, h]

/-- An environment in which no filesystem path exists for realpath. -/
def envNoDir : InstallEnv where
  npmPack := fun _ => ⟨0, "", ""⟩
  realpath := fun _ => none
  archiveEntries := fun _ => []
  dgst := fun _ _ => ""

/-- Witness for C10 at a concrete archive name: with no directory present at
the target path the iteration fails with the filesystem error and no cleanup
or extraction action is performed. -/
theorem missing_target_directory_aborts_witness :
    ((installAfterPack envNoDir 20000000 false (.obj .nil) "p" "r/p-1.0.0.tgz"
      initialGlobalConfig).2 =
      .error (realpathErrMsg (replaceFirst "r/p-1.0.0.tgz" ".tgz" ""))) ∧
    (installAfterPack envNoDir 20000000 false (.obj .nil) "p" "r/p-1.0.0.tgz"
      initialGlobalConfig).1 = [] :=
  ⟨(missing_target_directory_aborts envNoDir 20000000 false (.obj .nil) "p"
      "r/p-1.0.0.tgz" initialGlobalConfig (fun h => absurd h (by decide))
      (by decide)).1,
   by decide⟩
